import Mathlib

/-!
Shallow embedding of `ytbot` (`src/ytbot/cmd/ytbot/main.go`), a single-cycle
poller that checks a fixed set of channels for new videos and posts a
notification to a webhook, backed by a SQLite file with two tables,
`videos_posted (id TEXT PRIMARY KEY UNIQUE, date_posted TEXT NOT NULL)` and
`channel_check_times (id TEXT PRIMARY KEY UNIQUE, date_checked TEXT NOT NULL)`.

Timestamps are modelled as seconds (`Int`); the SQL age comparisons
`date_posted < datetime('now','-30 days')` and
`date_checked < datetime('now','-12 hours')` become integer comparisons
against `now - days30` and `now - hours12`.

The external collaborators (the YouTube search client, the webhook HTTP
transport, possible storage failures of the sweep statements) are inputs of
the model (`Env`); the behaviour of `runApp` itself — the order of the
statements it executes, which errors it treats as fatal (`log.Fatal` /
`panic` terminate the process), and the state changes it performs — is
translated statement by statement into `runCycle` below, which also emits a
trace of externally visible events so that ordering properties can be stated.
-/

namespace Ytbot

/-- Seconds in 12 hours, the recheck interval of `channel_check_times`. -/
def hours12 : Int := 12 * 3600

/-- Seconds in 30 days, the retention window of `videos_posted`. -/
def days30 : Int := 30 * 86400

/-- One row of the `videos_posted` table (`id TEXT PRIMARY KEY UNIQUE,
date_posted TEXT NOT NULL`). -/
structure VideoRow where
  id : String
  datePosted : Int
deriving DecidableEq, Repr

/-- One row of the `channel_check_times` table (`id TEXT PRIMARY KEY UNIQUE,
date_checked TEXT NOT NULL`). -/
structure CheckRow where
  id : String
  dateChecked : Int
deriving DecidableEq, Repr

/-- The persistent state: the two tables of the SQLite database. -/
structure Ledger where
  videosPosted : List VideoRow
  channelCheckTimes : List CheckRow
deriving DecidableEq, Repr

/-- The empty database, as produced by first-run schema bootstrap. -/
def emptyLedger : Ledger := { videosPosted := [], channelCheckTimes := [] }

/-- `SELECT * FROM videos_posted WHERE id=?;` followed by `r.Next()`:
true iff a row with this id exists (main.go line 192/196). -/
def hasVideo (l : Ledger) (vid : String) : Bool :=
  l.videosPosted.any (fun r => r.id == vid)

/-- `SELECT * FROM channel_check_times WHERE id=?;` followed by `r.Next()`:
true iff a check-mark row for this channel exists (main.go line 152/156).
The timestamp of the row is not consulted. -/
def wasRecentlyChecked (l : Ledger) (cid : String) : Bool :=
  l.channelCheckTimes.any (fun r => r.id == cid)

/-- `INSERT INTO videos_posted (id, date_posted) VALUES (?, datetime('now'));`
(main.go line 223). `id` is `PRIMARY KEY UNIQUE` in a `WITHOUT ROWID` table,
so SQLite rejects an insert whose key is already present with a constraint
error and leaves the table unchanged; otherwise the row is added. -/
def insertVideo (l : Ledger) (vid : String) (now : Int) : Except String Ledger :=
  if hasVideo l vid then
    .error "UNIQUE constraint failed: videos_posted.id"
  else
    .ok { l with videosPosted := l.videosPosted ++ [⟨vid, now⟩] }

/-- `INSERT INTO channel_check_times (id, date_checked) VALUES (?, datetime('now'));`
(main.go line 164), with the same `PRIMARY KEY UNIQUE` semantics. -/
def markChecked (l : Ledger) (cid : String) (now : Int) : Except String Ledger :=
  if wasRecentlyChecked l cid then
    .error "UNIQUE constraint failed: channel_check_times.id"
  else
    .ok { l with channelCheckTimes := l.channelCheckTimes ++ [⟨cid, now⟩] }

/-- `DELETE FROM videos_posted WHERE date_posted < datetime('now','-30 days');`
(main.go line 243): keep exactly the rows not older than 30 days. -/
def pruneVideos (l : Ledger) (now : Int) : Ledger :=
  { l with videosPosted :=
      l.videosPosted.filter (fun r => !decide (r.datePosted < now - days30)) }

/-- `DELETE FROM channel_check_times WHERE date_checked < datetime('now','-12 hours');`
(main.go line 247): keep exactly the rows not older than 12 hours. -/
def pruneCheckMarks (l : Ledger) (now : Int) : Ledger :=
  { l with channelCheckTimes :=
      l.channelCheckTimes.filter (fun r => !decide (r.dateChecked < now - hours12)) }

/-- List-level check that `pat` occurs at the start of the second list. -/
def startsWithL : List Char → List Char → Bool
  | [], _ => true
  | _ :: _, [] => false
  | p :: ps, c :: cs => p == c && startsWithL ps cs

/-- List-level substring occurrence check. -/
def containsSubL (pat : List Char) : List Char → Bool
  | [] => startsWithL pat []
  | c :: cs => startsWithL pat (c :: cs) || containsSubL pat cs

/-- `pat` occurs as a contiguous substring of `s`. -/
def strContains (s pat : String) : Bool :=
  containsSubL pat.data s.data

/-- Models Go `html.UnescapeString` (standard library, called at main.go
line 205) restricted to the basic named and numeric entities
`&amp; &lt; &gt; &quot; &#39;`; all other text is passed through unchanged.
The claims only exercise `&amp;`. -/
def htmlUnescapeList : List Char → List Char
  | [] => []
  | '&' :: 'a' :: 'm' :: 'p' :: ';' :: rest => '&' :: htmlUnescapeList rest
  | '&' :: 'l' :: 't' :: ';' :: rest => '<' :: htmlUnescapeList rest
  | '&' :: 'g' :: 't' :: ';' :: rest => '>' :: htmlUnescapeList rest
  | '&' :: 'q' :: 'u' :: 'o' :: 't' :: ';' :: rest => '"' :: htmlUnescapeList rest
  | '&' :: '#' :: '3' :: '9' :: ';' :: rest => Char.ofNat 39 :: htmlUnescapeList rest
  | c :: rest => c :: htmlUnescapeList rest

/-- String wrapper for `htmlUnescapeList`. -/
def htmlUnescape (s : String) : String :=
  ⟨htmlUnescapeList s.data⟩

/-- The webhook payload built at main.go line 205:
`fmt.Sprintf` of the raw Go string
`\x7b"content": "New video from **%s**\nhttps://youtu.be/%s"\x7d`
with `html.UnescapeString(item.Snippet.ChannelTitle)` and `item.Id.VideoId`.
The Go source is a raw (backtick) string literal, so the two characters
backslash and `n` are sent literally in the JSON body. The video title is
not part of the payload. -/
def webhookMessage (channelTitle videoId : String) : String :=
  "\x7b\"content\": \"New video from **" ++ htmlUnescape channelTitle ++
    "**\\nhttps://youtu.be/" ++ videoId ++ "\"\x7d"

/-- One search result item (`response.Items` element): `item.Id.Kind`,
`item.Id.VideoId`, `item.Snippet.Title`, `item.Snippet.ChannelTitle`. -/
structure Item where
  kind : String
  videoId : String
  title : String
  channelTitle : String
deriving DecidableEq, Repr

/-- Outcome of the YouTube search call `call.Do()` (external collaborator):
either a list of items or an error, on which the code panics (line 176). -/
inductive SearchResult where
  | ok (items : List Item)
  | err
deriving DecidableEq, Repr

/-- Outcome of the webhook HTTP POST `whClient.Do(whReq)` (external
collaborator): a transport-level error (`err != nil`, line 215) or a
response with a status code (204 = `http.StatusNoContent`). -/
inductive WebhookResult where
  | transportErr
  | status (code : Nat)
deriving DecidableEq, Repr

/-- Externally visible events of one run, in execution order. -/
inductive Event where
  | markCheckedEv (cid : String) (t : Int)
  | searchCall (cid : String)
  | ledgerLookup (vid : String)
  | webhookPost (content : String)
  | insertVideoEv (vid : String)
  | pruneVideosEv
  | pruneChecksEv
  | vacuumEv
deriving DecidableEq, Repr

/-- The inputs of one run: the monitored channel list in iteration order
(Go map iteration order is arbitrary, so it is a parameter), the external
collaborators, the clock, and whether each sweep statement's `db.Exec`
reports a storage error. -/
structure Env where
  channels : List (String × String)
  search : String → SearchResult
  webhook : String → WebhookResult
  now : Int
  pruneVideosFails : Bool
  pruneChecksFails : Bool
  vacuumFails : Bool

/-- Body of the inner item loop (main.go lines 180-238) for one item.
Returns the emitted events and `some` updated ledger, or `none` when the
run terminates fatally (`log.Fatal` exits the process). Non-video kinds
are skipped with no ledger interaction (line 234). For a video: the
`videos_posted` lookup; if absent, the webhook POST — a transport error is
fatal (line 216), any status code merely logs on non-204 (line 218) — and
then the `videos_posted` insert, whose failure is fatal (line 225). -/
def processItem (env : Env) (item : Item) (l : Ledger) : List Event × Option Ledger :=
  if item.kind == "youtube#video" then
    if hasVideo l item.videoId then
      ([.ledgerLookup item.videoId], some l)
    else
      let content := webhookMessage item.channelTitle item.videoId
      match env.webhook content with
      | .transportErr =>
          ([.ledgerLookup item.videoId, .webhookPost content], none)
      | .status _ =>
          match insertVideo l item.videoId env.now with
          | .error _ =>
              ([.ledgerLookup item.videoId, .webhookPost content], none)
          | .ok lNext =>
              ([.ledgerLookup item.videoId, .webhookPost content,
                .insertVideoEv item.videoId], some lNext)
  else
    ([], some l)

/-- The inner item loop over `response.Items`, stopping at a fatal error. -/
def processItems (env : Env) : List Item → Ledger → List Event × Option Ledger
  | [], l => ([], some l)
  | item :: rest, l =>
    match processItem env item l with
    | (tr, none) => (tr, none)
    | (tr, some lNext) =>
      let step := processItems env rest lNext
      (tr ++ step.1, step.2)

/-- Body of the channel loop (main.go lines 139-239) for one channel:
skip when a check mark exists (line 156); otherwise insert the check mark
(line 164, failure fatal) strictly before the search call (line 174,
error is a panic), then run the item loop on the results. -/
def processChannel (env : Env) (cid : String) (l : Ledger) : List Event × Option Ledger :=
  if wasRecentlyChecked l cid then
    ([], some l)
  else
    match markChecked l cid env.now with
    | .error _ => ([], none)
    | .ok lMarked =>
      match env.search cid with
      | .err => ([.markCheckedEv cid env.now, .searchCall cid], none)
      | .ok items =>
        let step := processItems env items lMarked
        (.markCheckedEv cid env.now :: .searchCall cid :: step.1, step.2)

/-- The channel loop over the monitored channel list. -/
def processChannels (env : Env) : List (String × String) → Ledger → List Event × Option Ledger
  | [], l => ([], some l)
  | (_, cid) :: rest, l =>
    match processChannel env cid l with
    | (tr, none) => (tr, none)
    | (tr, some lNext) =>
      let step := processChannels env rest lNext
      (tr ++ step.1, step.2)

/-- The clean-up block (main.go lines 242-254): the two `DELETE` statements
and `VACUUM`, in that order; an error from any of them is fatal
(`log.Fatal`). -/
def sweep (env : Env) (l : Ledger) : List Event × Option Ledger :=
  if env.pruneVideosFails then
    ([.pruneVideosEv], none)
  else
    let l1 := pruneVideos l env.now
    if env.pruneChecksFails then
      ([.pruneVideosEv, .pruneChecksEv], none)
    else
      let l2 := pruneCheckMarks l1 env.now
      if env.vacuumFails then
        ([.pruneVideosEv, .pruneChecksEv, .vacuumEv], none)
      else
        ([.pruneVideosEv, .pruneChecksEv, .vacuumEv], some l2)

/-- One full invocation of `runApp` after schema bootstrap: the channel
loop, then the clean-up block. `none` means the process terminated with a
fatal error (non-zero exit status); `some` means `runApp` returned `nil`. -/
def runCycle (env : Env) (l : Ledger) : List Event × Option Ledger :=
  match processChannels env env.channels l with
  | (tr, none) => (tr, none)
  | (tr, some lNext) =>
    let fin := sweep env lNext
    (tr ++ fin.1, fin.2)

/-- Repeated invocations of the program against the same database file. -/
def runCycles : List Env → Ledger → Option Ledger
  | [], l => some l
  | env :: rest, l =>
    match (runCycle env l).2 with
    | none => none
    | some lNext => runCycles rest lNext

/-- True exactly on search-call events. -/
def isSearch : Event → Bool
  | .searchCall _ => true
  | _ => false

/-- True exactly on the clean-up block's events (the two `DELETE`
statements and `VACUUM`). -/
def isSweepEv : Event → Bool
  | .pruneVideosEv => true
  | .pruneChecksEv => true
  | .vacuumEv => true
  | _ => false

/-- Scans a trace left to right, accumulating the channels whose check mark
has been written; true iff every search call is preceded (strictly earlier
in the trace) by a check-mark insert for the same channel. -/
def checkedBeforeSearch (seen : List String) : List Event → Bool
  | [] => true
  | .markCheckedEv c _ :: rest => checkedBeforeSearch (c :: seen) rest
  | .searchCall c :: rest => seen.contains c && checkedBeforeSearch seen rest
  | _ :: rest => checkedBeforeSearch seen rest

/-- The accumulated seen-set after scanning a trace. -/
def marksAcc (seen : List String) : List Event → List String
  | [] => seen
  | .markCheckedEv c _ :: rest => marksAcc (c :: seen) rest
  | _ :: rest => marksAcc seen rest

/-- The `videos_posted` table never holds two rows with the same id. -/
def NodupVideos (l : Ledger) : Prop :=
  (l.videosPosted.map VideoRow.id).Nodup

/-- Which tables exist in the SQLite file. -/
structure Schema where
  videosPostedTable : Bool
  channelCheckTimesTable : Bool
deriving DecidableEq, Repr

/-- `CREATE TABLE IF NOT EXISTS videos_posted ...` (main.go lines 111-115):
a no-op success when the table exists, otherwise creates it. -/
def createVideosPosted (s : Schema) : Except String Schema :=
  if s.videosPostedTable then .ok s
  else .ok { s with videosPostedTable := true }

/-- `CREATE TABLE IF NOT EXISTS channel_check_times ...` (main.go lines
122-126): a no-op success when the table exists, otherwise creates it. -/
def createChannelCheckTimes (s : Schema) : Except String Schema :=
  if s.channelCheckTimesTable then .ok s
  else .ok { s with channelCheckTimesTable := true }

/-- Schema bootstrap: the two `CREATE TABLE IF NOT EXISTS` statements in
source order. -/
def bootstrapSchema (s : Schema) : Except String Schema :=
  match createVideosPosted s with
  | .error e => .error e
  | .ok s1 => createChannelCheckTimes s1

/-- The end-to-end scenario's candidate: a video `v1` titled
`Foo &amp; Bar` on channel `X`. -/
def itemFooBar : Item :=
  { kind := "youtube#video", videoId := "v1", title := "Foo &amp; Bar", channelTitle := "X" }

/-- An environment in which the search finds `itemFooBar` and webhook
delivery succeeds with 204. -/
def envDeliverOk : Env :=
  { channels := [("X", "c1")]
  , search := fun _ => .ok [itemFooBar]
  , webhook := fun _ => .status 204
  , now := 1000
  , pruneVideosFails := false
  , pruneChecksFails := false
  , vacuumFails := false }

/-- Same environment, but the webhook POST fails at the transport level. -/
def envTransportErr : Env :=
  { envDeliverOk with webhook := fun _ => .transportErr }

/-- Same environment, but the webhook responds 500. -/
def envStatus500 : Env :=
  { envDeliverOk with webhook := fun _ => .status 500 }

/-- An environment with no channels in which `VACUUM` reports an error. -/
def envVacuumFails : Env :=
  { channels := []
  , search := fun _ => .ok []
  , webhook := fun _ => .status 204
  , now := 0
  , pruneVideosFails := false
  , pruneChecksFails := false
  , vacuumFails := true }

/-- A proper video candidate with id `abc`. -/
def itemVideoAbc : Item :=
  { kind := "youtube#video", videoId := "abc", title := "T", channelTitle := "Ch" }

/-- A playlist candidate with id `xyz`. -/
def itemPlaylistXyz : Item :=
  { kind := "youtube#playlist", videoId := "xyz", title := "P", channelTitle := "Ch" }

theorem filter_idem {α : Type} (p : α → Bool) (xs : List α) :
    (xs.filter p).filter p = xs.filter p := by
  rw [List.filter_filter]
  simp only [Bool.and_self]

/-- C9: schema bootstrap is idempotent: from any prior schema state the two
CREATE TABLE IF NOT EXISTS statements succeed, and running them a second time
on the resulting schema also succeeds and leaves the schema identical. -/
theorem c9_bootstrap_idempotent (s : Schema) :
    ∃ s1 : Schema, bootstrapSchema s = .ok s1 ∧ bootstrapSchema s1 = .ok s1 := by
  obtain ⟨a, b⟩ := s
  cases a <;> cases b <;> exact ⟨⟨true, true⟩, rfl, rfl⟩

/-- C7: the retention sweep deletes exactly the `videos_posted` rows older
than 30 days and the `channel_check_times` rows older than 12 hours, leaves
every newer row in place, is idempotent (and in particular a no-op when no
row matches), and a successful sweep step of a run computes precisely these
two prunes. -/
theorem c7_retention_sweep :
    (∀ (l : Ledger) (now : Int) (r : VideoRow),
        r ∈ (pruneVideos l now).videosPosted → ¬ r.datePosted < now - days30) ∧
    (∀ (l : Ledger) (now : Int) (r : VideoRow),
        r ∈ l.videosPosted → ¬ r.datePosted < now - days30 →
          r ∈ (pruneVideos l now).videosPosted) ∧
    (∀ (l : Ledger) (now : Int) (r : CheckRow),
        r ∈ (pruneCheckMarks l now).channelCheckTimes → ¬ r.dateChecked < now - hours12) ∧
    (∀ (l : Ledger) (now : Int) (r : CheckRow),
        r ∈ l.channelCheckTimes → ¬ r.dateChecked < now - hours12 →
          r ∈ (pruneCheckMarks l now).channelCheckTimes) ∧
    (∀ (l : Ledger) (now : Int),
        pruneVideos (pruneVideos l now) now = pruneVideos l now ∧
        pruneCheckMarks (pruneCheckMarks l now) now = pruneCheckMarks l now) ∧
    (∀ (l : Ledger) (now : Int),
        (∀ r ∈ l.videosPosted, ¬ r.datePosted < now - days30) →
        pruneVideos l now = l) ∧
    (∀ (l : Ledger) (now : Int),
        (∀ r ∈ l.channelCheckTimes, ¬ r.dateChecked < now - hours12) →
        pruneCheckMarks l now = l) ∧
    (∀ (env : Env) (l lFin : Ledger) (tr : List Event),
        sweep env l = (tr, some lFin) →
          lFin = pruneCheckMarks (pruneVideos l env.now) env.now) := by
  refine ⟨?_, ?_, ?_, ?_, ?_, ?_, ?_, ?_⟩
  · intro l now r hr
    have := (List.mem_filter.mp hr).2
    simpa using this
  · intro l now r hr hage
    exact List.mem_filter.mpr ⟨hr, by simpa using hage⟩
  · intro l now r hr
    have := (List.mem_filter.mp hr).2
    simpa using this
  · intro l now r hr hage
    exact List.mem_filter.mpr ⟨hr, by simpa using hage⟩
  · intro l now
    constructor
    · show ({ l with videosPosted := _ } : Ledger) = _
      simp only [pruneVideos]
      rw [filter_idem]
    · show ({ l with channelCheckTimes := _ } : Ledger) = _
      simp only [pruneCheckMarks]
      rw [filter_idem]
  · intro l now h
    simp only [pruneVideos]
    have : l.videosPosted.filter (fun r => !decide (r.datePosted < now - days30)) =
        l.videosPosted := by
      rw [List.filter_eq_self]
      intro r hr
      simpa using h r hr
    rw [this]
  · intro l now h
    simp only [pruneCheckMarks]
    have : l.channelCheckTimes.filter (fun r => !decide (r.dateChecked < now - hours12)) =
        l.channelCheckTimes := by
      rw [List.filter_eq_self]
      intro r hr
      simpa using h r hr
    rw [this]
  · intro env l lFin tr h
    unfold sweep at h
    split at h
    · exact absurd h (by simp)
    · split at h
      · exact absurd h (by simp)
      · split at h
        · exact absurd h (by simp)
        · simp only [Prod.mk.injEq, Option.some.injEq] at h
          exact h.2.symm

/-- Witness for C7 at concrete inputs: a fresh row survives the prune and an
old row's absence respects the bound; a failure-free sweep computes the two
prunes. -/
theorem c7_retention_sweep_witness :
    (¬ (100 : Int) < 1000 - days30) ∧
    ((⟨"v", 100⟩ : VideoRow) ∈
      (pruneVideos ⟨[⟨"v", 100⟩, ⟨"w", -9000000⟩], []⟩ 1000).videosPosted) ∧
    ((⟨"c", 100⟩ : CheckRow) ∈
      (pruneCheckMarks ⟨[], [⟨"c", 100⟩, ⟨"d", -9000000⟩]⟩ 1000).channelCheckTimes) ∧
    (pruneVideos ⟨[⟨"v", 100⟩], []⟩ 1000 = ⟨[⟨"v", 100⟩], []⟩) ∧
    ((⟨"abc", 1000⟩ : VideoRow).datePosted < 1000 - days30 → False) ∧
    ({ videosPosted := [], channelCheckTimes := [] } : Ledger) =
      pruneCheckMarks (pruneVideos emptyLedger envDeliverOk.now) envDeliverOk.now := by
  refine ⟨by decide, ?_, ?_, ?_, by decide, ?_⟩
  · exact c7_retention_sweep.2.1 ⟨[⟨"v", 100⟩, ⟨"w", -9000000⟩], []⟩ 1000 ⟨"v", 100⟩
      (by decide) (by decide)
  · exact c7_retention_sweep.2.2.2.1 ⟨[], [⟨"c", 100⟩, ⟨"d", -9000000⟩]⟩ 1000 ⟨"c", 100⟩
      (by decide) (by decide)
  · exact c7_retention_sweep.2.2.2.2.2.1 ⟨[⟨"v", 100⟩], []⟩ 1000 (by decide)
  · exact c7_retention_sweep.2.2.2.2.2.2.2 envDeliverOk emptyLedger
      { videosPosted := [], channelCheckTimes := [] }
      [.pruneVideosEv, .pruneChecksEv, .vacuumEv] (by decide)

theorem wasRecentlyChecked_of_mem {l : Ledger} {c : String} {T : Int}
    (h : (⟨c, T⟩ : CheckRow) ∈ l.channelCheckTimes) :
    wasRecentlyChecked l c = true :=
  List.any_eq_true.mpr ⟨⟨c, T⟩, h, by simp⟩

theorem mark_survives_prune {c : String} {T u Tp : Int} {l : Ledger}
    (h : (⟨c, T⟩ : CheckRow) ∈ l.channelCheckTimes)
    (hu : u ≤ Tp) (hT : Tp < T + hours12) :
    (⟨c, T⟩ : CheckRow) ∈ (pruneCheckMarks l u).channelCheckTimes := by
  refine List.mem_filter.mpr ⟨h, ?_⟩
  simp only [Bool.not_eq_true', decide_eq_false_iff_not]
  omega

theorem mark_survives_prunes {c : String} {T Tp : Int} (us : List Int) (l : Ledger)
    (h : (⟨c, T⟩ : CheckRow) ∈ l.channelCheckTimes)
    (hus : ∀ u ∈ us, u ≤ Tp) (hT : Tp < T + hours12) :
    (⟨c, T⟩ : CheckRow) ∈
      (us.foldl (fun acc u => pruneCheckMarks acc u) l).channelCheckTimes := by
  induction us generalizing l with
  | nil => exact h
  | cons u rest ih =>
    simp only [List.foldl_cons]
    exact ih (pruneCheckMarks l u)
      (mark_survives_prune h (hus u (by simp)) hT)
      (fun v hv => hus v (by simp [hv]))

/-- C6: a check mark written at time T keeps the channel skipped at any
decision before T + 12h (the mark survives every prune run up to then and
its presence makes the scheduler skip, performing no search and leaving the
ledger unchanged), while once a prune run after T + 12h has removed the
mark the scheduler scans the channel (the search call is performed). -/
theorem c6_scan_interval :
    (∀ (l : Ledger) (c : String) (T Tp : Int) (us : List Int),
        (⟨c, T⟩ : CheckRow) ∈ l.channelCheckTimes →
        (∀ u ∈ us, u ≤ Tp) → Tp < T + hours12 →
        wasRecentlyChecked (us.foldl (fun acc u => pruneCheckMarks acc u) l) c = true) ∧
    (∀ (env : Env) (cid : String) (l : Ledger),
        wasRecentlyChecked l cid = true →
        processChannel env cid l = ([], some l)) ∧
    (∀ (l : Ledger) (c : String) (T U : Int),
        (∀ r ∈ l.channelCheckTimes, r.id = c → r.dateChecked = T) →
        T + hours12 < U →
        wasRecentlyChecked (pruneCheckMarks l U) c = false) ∧
    (∀ (env : Env) (cid : String) (l : Ledger),
        wasRecentlyChecked l cid = false →
        Event.searchCall cid ∈ (processChannel env cid l).1) := by
  refine ⟨?_, ?_, ?_, ?_⟩
  · intro l c T Tp us hmem hus hT
    exact wasRecentlyChecked_of_mem (mark_survives_prunes us l hmem hus hT)
  · intro env cid l h
    simp [processChannel, h]
  · intro l c T U hall hlt
    simp only [wasRecentlyChecked]
    rw [List.any_eq_false]
    intro r hr hbeq
    obtain ⟨hmem, hkeep⟩ := List.mem_filter.mp hr
    have hid : r.id = c := by simpa using hbeq
    have hTc := hall r hmem hid
    simp only [Bool.not_eq_true', decide_eq_false_iff_not] at hkeep
    rw [hTc] at hkeep
    omega
  · intro env cid l h
    have hmc : markChecked l cid env.now =
        .ok { l with channelCheckTimes := l.channelCheckTimes ++ [⟨cid, env.now⟩] } := by
      simp [markChecked, h]
    simp only [processChannel, h, Bool.false_eq_true, if_false, hmc]
    cases hs : env.search cid <;> simp [hs]

/-- Witness for C6 at concrete inputs: a mark for channel c1 at time 0
survives a prune at time 100 and keeps the channel skipped before 12h; a
prune at time 43201 removes it and the next decision performs the search. -/
theorem c6_scan_interval_witness :
    wasRecentlyChecked
      (([100] : List Int).foldl (fun acc u => pruneCheckMarks acc u)
        ⟨[], [⟨"c1", 0⟩]⟩) "c1" = true ∧
    processChannel envDeliverOk "c1" ⟨[], [⟨"c1", 0⟩]⟩ = ([], some ⟨[], [⟨"c1", 0⟩]⟩) ∧
    wasRecentlyChecked (pruneCheckMarks ⟨[], [⟨"c1", 0⟩]⟩ 43201) "c1" = false ∧
    Event.searchCall "c1" ∈ (processChannel envDeliverOk "c1" emptyLedger).1 := by
  refine ⟨?_, ?_, ?_, ?_⟩
  · exact c6_scan_interval.1 ⟨[], [⟨"c1", 0⟩]⟩ "c1" 0 100 [100]
      (by decide) (by decide) (by decide)
  · exact c6_scan_interval.2.1 envDeliverOk "c1" ⟨[], [⟨"c1", 0⟩]⟩
      (c6_scan_interval.1 ⟨[], [⟨"c1", 0⟩]⟩ "c1" 0 0 [] (by decide) (by decide) (by decide))
  · exact c6_scan_interval.2.2.1 ⟨[], [⟨"c1", 0⟩]⟩ "c1" 0 43201 (by decide) (by decide)
  · exact c6_scan_interval.2.2.2 envDeliverOk "c1" emptyLedger (by decide)

theorem wasRecentlyChecked_eq_any_ids (l : Ledger) (c : String) :
    wasRecentlyChecked l c =
      (l.channelCheckTimes.map CheckRow.id).any (fun x => x == c) := by
  unfold wasRecentlyChecked
  induction l.channelCheckTimes with
  | nil => rfl
  | cons r rs ih => simp [List.any_cons, ih]

theorem processItem_trace_cases (env : Env) (item : Item) (l : Ledger) :
    (processItem env item l).1 = [] ∨
    (processItem env item l).1 = [.ledgerLookup item.videoId] ∨
    (processItem env item l).1 =
      [.ledgerLookup item.videoId,
       .webhookPost (webhookMessage item.channelTitle item.videoId)] ∨
    (processItem env item l).1 =
      [.ledgerLookup item.videoId,
       .webhookPost (webhookMessage item.channelTitle item.videoId),
       .insertVideoEv item.videoId] := by
  cases hk : item.kind == "youtube#video"
  · simp [processItem, hk]
  · cases hv : hasVideo l item.videoId
    · cases hw : env.webhook (webhookMessage item.channelTitle item.videoId) with
      | transportErr => simp [processItem, hk, hv, hw]
      | status code =>
        cases hi : insertVideo l item.videoId env.now with
        | error e => simp [processItem, hk, hv, hw, hi]
        | ok l2 => simp [processItem, hk, hv, hw, hi]
    · simp [processItem, hk, hv]

theorem processItem_no_sweep (env : Env) (item : Item) (l : Ledger) :
    ((processItem env item l).1).all (fun e => !isSweepEv e) = true := by
  rcases processItem_trace_cases env item l with h | h | h | h <;>
    rw [h] <;> simp [isSweepEv]

theorem processItems_no_sweep (env : Env) (items : List Item) (l : Ledger) :
    ((processItems env items l).1).all (fun e => !isSweepEv e) = true := by
  induction items generalizing l with
  | nil => rfl
  | cons item rest ih =>
    rcases hp : processItem env item l with ⟨tr, res⟩
    have htr : tr.all (fun e => !isSweepEv e) = true := by
      have := processItem_no_sweep env item l
      rw [hp] at this
      exact this
    cases res with
    | none => simp [processItems, hp, htr]
    | some lNext => simp [processItems, hp, List.all_append, htr, ih]

theorem processChannel_no_sweep (env : Env) (cid : String) (l : Ledger) :
    ((processChannel env cid l).1).all (fun e => !isSweepEv e) = true := by
  cases hc : wasRecentlyChecked l cid
  · cases hm : markChecked l cid env.now with
    | error e => simp [processChannel, hc, hm]
    | ok lMarked =>
      cases hs : env.search cid with
      | err => simp [processChannel, hc, hm, hs, isSweepEv]
      | ok items =>
        have htrace : (processChannel env cid l).1 =
            .markCheckedEv cid env.now :: .searchCall cid ::
              (processItems env items lMarked).1 := by
          simp [processChannel, hc, hm, hs]
        rw [htrace]
        simp only [List.all_cons, Bool.and_eq_true]
        exact ⟨rfl, rfl, processItems_no_sweep env items lMarked⟩
  · simp [processChannel, hc]

theorem processChannels_no_sweep (env : Env) (chans : List (String × String)) (l : Ledger) :
    ((processChannels env chans l).1).all (fun e => !isSweepEv e) = true := by
  induction chans generalizing l with
  | nil => rfl
  | cons hd rest ih =>
    obtain ⟨name, cid⟩ := hd
    rcases hp : processChannel env cid l with ⟨tr, res⟩
    have htr : tr.all (fun e => !isSweepEv e) = true := by
      have := processChannel_no_sweep env cid l
      rw [hp] at this
      exact this
    cases res with
    | none => simp [processChannels, hp, htr]
    | some lNext => simp [processChannels, hp, List.all_append, htr, ih]

theorem sweep_only_sweep (env : Env) (l : Ledger) :
    ((sweep env l).1).all isSweepEv = true := by
  unfold sweep
  split
  · rfl
  · split
    · rfl
    · split <;> rfl

/-- C10: within a cycle the skip decision for a channel is a pure existence
check on its check-mark row — it ignores the mark's timestamp, so a mark
already older than 12 hours still causes a skip — and the prune statements
run only in the clean-up block after every channel has been processed: the
cycle trace splits into a channel-phase part containing no sweep events
followed by a sweep-phase part containing only sweep events. -/
theorem c10_skip_by_existence :
    (∀ (l1 l2 : Ledger) (c : String),
        l1.channelCheckTimes.map CheckRow.id = l2.channelCheckTimes.map CheckRow.id →
        wasRecentlyChecked l1 c = wasRecentlyChecked l2 c) ∧
    (∀ (l : Ledger) (c : String) (T now : Int) (env : Env),
        (⟨c, T⟩ : CheckRow) ∈ l.channelCheckTimes →
        T < now - hours12 →
        processChannel env c l = ([], some l)) ∧
    (∀ (env : Env) (l : Ledger),
        ∃ a b : List Event,
          (runCycle env l).1 = a ++ b ∧
          a.all (fun e => !isSweepEv e) = true ∧
          b.all isSweepEv = true) := by
  refine ⟨?_, ?_, ?_⟩
  · intro l1 l2 c h
    rw [wasRecentlyChecked_eq_any_ids, wasRecentlyChecked_eq_any_ids, h]
  · intro l c T now env hmem hstale
    simp [processChannel, wasRecentlyChecked_of_mem hmem]
  · intro env l
    rcases hp : processChannels env env.channels l with ⟨tr, res⟩
    have htr : tr.all (fun e => !isSweepEv e) = true := by
      have := processChannels_no_sweep env env.channels l
      rw [hp] at this
      exact this
    cases res with
    | none =>
      refine ⟨tr, [], ?_, htr, rfl⟩
      simp [runCycle, hp]
    | some lNext =>
      refine ⟨tr, (sweep env lNext).1, ?_, htr, sweep_only_sweep env lNext⟩
      simp [runCycle, hp]

/-- Witness for C10 at concrete inputs: two ledgers whose marks differ only
in timestamps make the same skip decision, and a mark 100000 seconds old
(well past 12 hours) still causes the channel to be skipped. -/
theorem c10_skip_by_existence_witness :
    wasRecentlyChecked ⟨[], [⟨"c1", 5⟩]⟩ "c1" =
      wasRecentlyChecked ⟨[], [⟨"c1", 999999⟩]⟩ "c1" ∧
    processChannel envDeliverOk "c1" ⟨[], [⟨"c1", 0⟩]⟩ = ([], some ⟨[], [⟨"c1", 0⟩]⟩) := by
  constructor
  · exact c10_skip_by_existence.1 ⟨[], [⟨"c1", 5⟩]⟩ ⟨[], [⟨"c1", 999999⟩]⟩ "c1" (by decide)
  · exact c10_skip_by_existence.2.1 ⟨[], [⟨"c1", 0⟩]⟩ "c1" 0 100000 envDeliverOk
      (by decide) (by decide)

/-- C8: a candidate whose kind is not "youtube#video" is skipped with no
ledger lookup, no webhook POST and no insert, and processing the mixed list
[video "abc", playlist "xyz"] performs exactly the lookup, POST and insert
for "abc" and creates no ledger entry for "xyz". -/
theorem c8_kind_filtering :
    (∀ (env : Env) (item : Item) (l : Ledger),
        item.kind ≠ "youtube#video" → processItem env item l = ([], some l)) ∧
    processItems envDeliverOk [itemVideoAbc, itemPlaylistXyz] emptyLedger =
      ([.ledgerLookup "abc",
        .webhookPost (webhookMessage "Ch" "abc"),
        .insertVideoEv "abc"],
       some ⟨[⟨"abc", 1000⟩], []⟩) := by
  constructor
  · intro env item l h
    have hk : (item.kind == "youtube#video") = false := by
      simpa using h
    simp [processItem, hk]
  · rfl

/-- Witness for C8 at a concrete input: the playlist candidate is skipped
with no events and an unchanged ledger. -/
theorem c8_kind_filtering_witness :
    processItem envDeliverOk itemPlaylistXyz emptyLedger = ([], some emptyLedger) := by
  exact c8_kind_filtering.1 envDeliverOk itemPlaylistXyz emptyLedger (by decide)

/-- C5 counterexample: for the scenario candidate with title "Foo &amp; Bar"
the pipeline POSTs exactly `webhookMessage "X" "v1"`, and that content does
not contain the unescaped text "Foo & Bar": the video title is not part of
the payload built at main.go line 205. -/
theorem c5_counterexample :
    itemFooBar.title = "Foo &amp; Bar" ∧
    (processItem envDeliverOk itemFooBar emptyLedger).1 =
      [.ledgerLookup "v1", .webhookPost (webhookMessage "X" "v1"), .insertVideoEv "v1"] ∧
    strContains (webhookMessage "X" "v1") "Foo & Bar" = false ∧
    strContains (webhookMessage "X" "v1") "v1" = true := by
  exact ⟨rfl, rfl, by decide, by decide⟩

/-- C5 (amended): the POSTed content contains the channel display name with
HTML entities unescaped and a constructed watch URL containing the video
identifier; the video title does not appear in the message. -/
theorem c5_message_content (ch vid : String) :
    (∃ pre post : String, webhookMessage ch vid = pre ++ htmlUnescape ch ++ post) ∧
    (∃ pre post : String,
        webhookMessage ch vid = pre ++ ("https://youtu.be/" ++ vid) ++ post) := by
  constructor
  · refine ⟨"\x7b\"content\": \"New video from **",
      "**\\nhttps://youtu.be/" ++ vid ++ "\"\x7d", ?_⟩
    simp [webhookMessage, String.append_assoc]
  · refine ⟨"\x7b\"content\": \"New video from **" ++ htmlUnescape ch ++ "**\\n",
      "\"\x7d", ?_⟩
    have hsplit : ("**\\nhttps://youtu.be/" : String).data =
        ("**\\n" : String).data ++ ("https://youtu.be/" : String).data := rfl
    apply String.ext
    simp [webhookMessage, String.data_append, List.append_assoc, hsplit]

/-- C3 counterexample: a transport-level webhook delivery error is fatal —
the item step and the whole run end with `none` (the process exits
non-zero) and no announcement is recorded for "v1". -/
theorem c3_counterexample :
    (processItem envTransportErr itemFooBar emptyLedger).2 = none ∧
    Event.insertVideoEv "v1" ∉ (processItem envTransportErr itemFooBar emptyLedger).1 ∧
    (runCycle envTransportErr emptyLedger).2 = none := by
  exact ⟨rfl, by decide, rfl⟩

/-- C3 (amended): a non-success HTTP status from the webhook is non-fatal —
the failure is only logged, the run continues, and the announcement is
still recorded — but a transport-level delivery error terminates the run
fatally before the announcement is recorded. -/
theorem c3_delivery_policy :
    (∀ (env : Env) (item : Item) (l : Ledger) (code : Nat),
        item.kind = "youtube#video" →
        hasVideo l item.videoId = false →
        env.webhook (webhookMessage item.channelTitle item.videoId) = .status code →
        processItem env item l =
          ([.ledgerLookup item.videoId,
            .webhookPost (webhookMessage item.channelTitle item.videoId),
            .insertVideoEv item.videoId],
           some { l with videosPosted := l.videosPosted ++ [⟨item.videoId, env.now⟩] })) ∧
    (∀ (env : Env) (item : Item) (l : Ledger),
        item.kind = "youtube#video" →
        hasVideo l item.videoId = false →
        env.webhook (webhookMessage item.channelTitle item.videoId) = .transportErr →
        processItem env item l =
          ([.ledgerLookup item.videoId,
            .webhookPost (webhookMessage item.channelTitle item.videoId)], none)) := by
  constructor
  · intro env item l code hk hv hw
    simp [processItem, hk, hv, hw, insertVideo]
  · intro env item l hk hv hw
    simp [processItem, hk, hv, hw]

/-- Witness for C3 (amended) at concrete inputs: a 500 response still leads
to the insert and a successful continuation; a transport error stops the
run with no insert. -/
theorem c3_delivery_policy_witness :
    processItem envStatus500 itemFooBar emptyLedger =
      ([.ledgerLookup "v1", .webhookPost (webhookMessage "X" "v1"), .insertVideoEv "v1"],
       some { videosPosted := [⟨"v1", 1000⟩], channelCheckTimes := [] }) ∧
    processItem envTransportErr itemFooBar emptyLedger =
      ([.ledgerLookup "v1", .webhookPost (webhookMessage "X" "v1")], none) := by
  constructor
  · exact c3_delivery_policy.1 envStatus500 itemFooBar emptyLedger 500 rfl (by decide) rfl
  · exact c3_delivery_policy.2 envTransportErr itemFooBar emptyLedger rfl (by decide) rfl

/-- C4 counterexample: with the two DELETE statements succeeding and VACUUM
reporting an error, the run ends fatally (`none`, so the process exits
non-zero) instead of completing with success. -/
theorem c4_counterexample :
    runCycle envVacuumFails emptyLedger =
      ([.pruneVideosEv, .pruneChecksEv, .vacuumEv], none) := rfl

/-- C4 (amended): an error in any retention-sweep step — either DELETE or
the VACUUM storage reclamation — is fatal: the run never returns success. -/
theorem c4_sweep_errors_fatal :
    (∀ (env : Env) (l : Ledger),
        env.pruneVideosFails = true → (runCycle env l).2 = none) ∧
    (∀ (env : Env) (l : Ledger),
        env.pruneChecksFails = true → (runCycle env l).2 = none) ∧
    (∀ (env : Env) (l : Ledger),
        env.vacuumFails = true → (runCycle env l).2 = none) := by
  have hsweep : ∀ (env : Env) (l : Ledger),
      env.pruneVideosFails = true ∨ env.pruneChecksFails = true ∨ env.vacuumFails = true →
      (sweep env l).2 = none := by
    intro env l h
    unfold sweep
    split
    · rfl
    · split
      · rfl
      · split
        · rfl
        · simp_all
  have hrun : ∀ (env : Env) (l : Ledger),
      env.pruneVideosFails = true ∨ env.pruneChecksFails = true ∨ env.vacuumFails = true →
      (runCycle env l).2 = none := by
    intro env l h
    unfold runCycle
    rcases hp : processChannels env env.channels l with ⟨tr, res⟩
    cases res with
    | none => simp
    | some lNext => simpa using hsweep env lNext h
  exact ⟨fun env l h => hrun env l (.inl h),
         fun env l h => hrun env l (.inr (.inl h)),
         fun env l h => hrun env l (.inr (.inr h))⟩

/-- Witness for C4 (amended) at a concrete input: the VACUUM-failing
environment never yields a successful run. -/
theorem c4_sweep_errors_fatal_witness :
    (runCycle envVacuumFails ⟨[⟨"v", 0⟩], []⟩).2 = none := by
  exact c4_sweep_errors_fatal.2.2 envVacuumFails ⟨[⟨"v", 0⟩], []⟩ rfl

theorem cbs_append (a b : List Event) : ∀ seen : List String,
    checkedBeforeSearch seen (a ++ b) =
      (checkedBeforeSearch seen a && checkedBeforeSearch (marksAcc seen a) b) := by
  induction a with
  | nil => intro seen; simp [checkedBeforeSearch, marksAcc]
  | cons e rest ih =>
    intro seen
    cases e <;> simp [checkedBeforeSearch, marksAcc, ih, Bool.and_assoc]

theorem processItems_all_of_item (env : Env) (p : Event → Bool)
    (hitem : ∀ (item : Item) (l : Ledger), ((processItem env item l).1).all p = true) :
    ∀ (items : List Item) (l : Ledger), ((processItems env items l).1).all p = true := by
  intro items
  induction items with
  | nil => intro l; rfl
  | cons item rest ih =>
    intro l
    rcases hp : processItem env item l with ⟨tr, res⟩
    have htr : tr.all p = true := by
      have := hitem item l
      rw [hp] at this
      exact this
    cases res with
    | none => simp [processItems, hp, htr]
    | some lNext => simp [processItems, hp, List.all_append, htr, ih]

theorem processItem_no_search (env : Env) (item : Item) (l : Ledger) :
    ((processItem env item l).1).all (fun e => !isSearch e) = true := by
  rcases processItem_trace_cases env item l with h | h | h | h <;>
    rw [h] <;> simp [isSearch]

theorem cbs_of_no_search (tr : List Event) (h : tr.all (fun e => !isSearch e) = true) :
    ∀ seen : List String, checkedBeforeSearch seen tr = true := by
  induction tr with
  | nil => intro seen; rfl
  | cons e rest ih =>
    rw [List.all_cons, Bool.and_eq_true] at h
    intro seen
    cases e
    case searchCall c => simp [isSearch] at h
    all_goals exact ih h.2 _

theorem processChannel_cbs (env : Env) (cid : String) (l : Ledger) (seen : List String) :
    checkedBeforeSearch seen (processChannel env cid l).1 = true := by
  cases hc : wasRecentlyChecked l cid
  · cases hm : markChecked l cid env.now with
    | error e => simp [processChannel, hc, hm, checkedBeforeSearch]
    | ok lMarked =>
      cases hs : env.search cid with
      | err =>
        have htrace : (processChannel env cid l).1 =
            [.markCheckedEv cid env.now, .searchCall cid] := by
          simp [processChannel, hc, hm, hs]
        rw [htrace]
        simp [checkedBeforeSearch, List.contains_cons]
      | ok items =>
        have htrace : (processChannel env cid l).1 =
            .markCheckedEv cid env.now :: .searchCall cid ::
              (processItems env items lMarked).1 := by
          simp [processChannel, hc, hm, hs]
        rw [htrace]
        simp only [checkedBeforeSearch, Bool.and_eq_true]
        refine ⟨by simp [List.contains_cons], ?_⟩
        exact cbs_of_no_search _
          (processItems_all_of_item env _ (processItem_no_search env) items lMarked) _
  · simp [processChannel, hc, checkedBeforeSearch]

theorem processChannels_cbs (env : Env) :
    ∀ (chans : List (String × String)) (l : Ledger) (seen : List String),
      checkedBeforeSearch seen (processChannels env chans l).1 = true := by
  intro chans
  induction chans with
  | nil => intro l seen; rfl
  | cons hd rest ih =>
    intro l seen
    obtain ⟨name, cid⟩ := hd
    rcases hp : processChannel env cid l with ⟨tr, res⟩
    have htr : ∀ s : List String, checkedBeforeSearch s tr = true := by
      intro s
      have := processChannel_cbs env cid l s
      rw [hp] at this
      exact this
    cases res with
    | none => simp [processChannels, hp, htr]
    | some lNext => simp [processChannels, hp, cbs_append, htr, ih]

theorem sweep_no_search (env : Env) (l : Ledger) :
    ((sweep env l).1).all (fun e => !isSearch e) = true := by
  unfold sweep
  split
  · rfl
  · split
    · rfl
    · split <;> rfl

/-- C2: in every cycle, every external search call for a channel is
strictly preceded in the execution trace by the insert of that channel's
check-mark row: scanning the whole run trace, each `searchCall cid` event
finds `cid` among the channels whose `markCheckedEv` was already emitted. -/
theorem c2_mark_before_search (env : Env) (l : Ledger) :
    checkedBeforeSearch [] (runCycle env l).1 = true := by
  rcases hp : processChannels env env.channels l with ⟨tr, res⟩
  have htr : ∀ s : List String, checkedBeforeSearch s tr = true := by
    intro s
    have := processChannels_cbs env env.channels l s
    rw [hp] at this
    exact this
  cases res with
  | none => simp [runCycle, hp, htr]
  | some lNext =>
    simp only [runCycle, hp]
    rw [cbs_append]
    simp [htr, cbs_of_no_search _ (sweep_no_search env lNext)]

theorem hasVideo_false_not_mem {l : Ledger} {vid : String}
    (h : hasVideo l vid = false) :
    vid ∉ l.videosPosted.map VideoRow.id := by
  intro hmem
  obtain ⟨r, hr, hid⟩ := List.mem_map.mp hmem
  have htrue : hasVideo l vid = true :=
    List.any_eq_true.mpr ⟨r, hr, by simp [hid]⟩
  rw [h] at htrue
  exact Bool.false_ne_true htrue

theorem insertVideo_ok {l : Ledger} {vid : String} {now : Int} {l2 : Ledger}
    (h : insertVideo l vid now = .ok l2) :
    hasVideo l vid = false ∧
    l2.videosPosted = l.videosPosted ++ [⟨vid, now⟩] ∧
    l2.channelCheckTimes = l.channelCheckTimes := by
  unfold insertVideo at h
  split at h
  · exact absurd h (by simp)
  · rename_i hv
    simp only [Except.ok.injEq] at h
    subst h
    exact ⟨by simpa using hv, rfl, rfl⟩

theorem insertVideo_nodup {l : Ledger} {vid : String} {now : Int} {l2 : Ledger}
    (hN : NodupVideos l) (h : insertVideo l vid now = .ok l2) : NodupVideos l2 := by
  obtain ⟨hv, hvp, _⟩ := insertVideo_ok h
  unfold NodupVideos
  rw [hvp, List.map_append, List.nodup_append]
  refine ⟨hN, by simp, ?_⟩
  intro x hx hx2
  simp only [List.map_cons, List.map_nil, List.mem_singleton] at hx2
  subst hx2
  exact hasVideo_false_not_mem hv hx

theorem markChecked_ok_videos {l : Ledger} {cid : String} {now : Int} {l2 : Ledger}
    (h : markChecked l cid now = .ok l2) : l2.videosPosted = l.videosPosted := by
  unfold markChecked at h
  split at h
  · exact absurd h (by simp)
  · simp only [Except.ok.injEq] at h
    subst h
    rfl

theorem processItem_nodup {env : Env} {item : Item} {l l2 : Ledger}
    (hN : NodupVideos l)
    (h : (processItem env item l).2 = some l2) : NodupVideos l2 := by
  cases hk : item.kind == "youtube#video"
  · simp only [processItem, hk, Bool.false_eq_true, if_false, Option.some.injEq] at h
    rw [← h]
    exact hN
  · cases hv : hasVideo l item.videoId
    · cases hw : env.webhook (webhookMessage item.channelTitle item.videoId) with
      | transportErr => simp [processItem, hk, hv, hw] at h
      | status code =>
        cases hi : insertVideo l item.videoId env.now with
        | error e => simp [processItem, hk, hv, hw, hi] at h
        | ok lNext =>
          simp only [processItem, hk, hv, hw, hi, if_true, Bool.false_eq_true,
            if_false, Option.some.injEq] at h
          rw [← h]
          exact insertVideo_nodup hN hi
    · simp only [processItem, hk, hv, if_true, Option.some.injEq] at h
      rw [← h]
      exact hN

theorem processItems_nodup {env : Env} (items : List Item) :
    ∀ {l l2 : Ledger}, NodupVideos l →
      (processItems env items l).2 = some l2 → NodupVideos l2 := by
  induction items with
  | nil =>
    intro l l2 hN h
    simp only [processItems, Option.some.injEq] at h
    rw [← h]
    exact hN
  | cons item rest ih =>
    intro l l2 hN h
    rcases hp : processItem env item l with ⟨trh, res⟩
    cases res with
    | none => simp [processItems, hp] at h
    | some lNext =>
      simp only [processItems, hp] at h
      have hNext : NodupVideos lNext := processItem_nodup hN (by rw [hp])
      exact ih hNext h

theorem processChannel_nodup {env : Env} {cid : String} {l l2 : Ledger}
    (hN : NodupVideos l)
    (h : (processChannel env cid l).2 = some l2) : NodupVideos l2 := by
  cases hc : wasRecentlyChecked l cid
  · cases hm : markChecked l cid env.now with
    | error e => simp [processChannel, hc, hm] at h
    | ok lMarked =>
      have hNm : NodupVideos lMarked := by
        unfold NodupVideos
        rw [markChecked_ok_videos hm]
        exact hN
      cases hs : env.search cid with
      | err => simp [processChannel, hc, hm, hs] at h
      | ok items =>
        simp only [processChannel, hc, hm, hs, Bool.false_eq_true, if_false] at h
        exact processItems_nodup items hNm h
  · simp only [processChannel, hc, if_true, Option.some.injEq] at h
    rw [← h]
    exact hN

theorem processChannels_nodup {env : Env} (chans : List (String × String)) :
    ∀ {l l2 : Ledger}, NodupVideos l →
      (processChannels env chans l).2 = some l2 → NodupVideos l2 := by
  induction chans with
  | nil =>
    intro l l2 hN h
    simp only [processChannels, Option.some.injEq] at h
    rw [← h]
    exact hN
  | cons hd rest ih =>
    intro l l2 hN h
    obtain ⟨name, cid⟩ := hd
    rcases hp : processChannel env cid l with ⟨trh, res⟩
    cases res with
    | none => simp [processChannels, hp] at h
    | some lNext =>
      simp only [processChannels, hp] at h
      have hNext : NodupVideos lNext := processChannel_nodup hN (by rw [hp])
      exact ih hNext h

theorem pruneVideos_nodup {l : Ledger} {now : Int} (hN : NodupVideos l) :
    NodupVideos (pruneVideos l now) :=
  List.Nodup.sublist (List.Sublist.map _ (List.filter_sublist _)) hN

theorem sweep_nodup {env : Env} {l l2 : Ledger}
    (hN : NodupVideos l) (h : (sweep env l).2 = some l2) : NodupVideos l2 := by
  unfold sweep at h
  split at h
  · simp at h
  · split at h
    · simp at h
    · split at h
      · simp at h
      · simp only [Option.some.injEq] at h
        rw [← h]
        exact pruneVideos_nodup hN

theorem runCycle_nodup {env : Env} {l l2 : Ledger}
    (hN : NodupVideos l) (h : (runCycle env l).2 = some l2) : NodupVideos l2 := by
  rcases hp : processChannels env env.channels l with ⟨trh, res⟩
  cases res with
  | none => simp [runCycle, hp] at h
  | some lNext =>
    simp only [runCycle, hp] at h
    have hNext : NodupVideos lNext := processChannels_nodup _ hN (by rw [hp])
    exact sweep_nodup hNext h

/-- C1: the `videos_posted` primary key makes duplicate announcement
impossible: an insert for an identifier already present is rejected with a
constraint error (never overwriting), a successful insert happens only
when the identifier was absent and only appends the new row, the pipeline
skips (no webhook POST, no insert) any video already recorded, and across
any number of cycles a ledger without duplicate identifiers never acquires
one. -/
theorem c1_no_duplicate_announcement :
    (∀ (l : Ledger) (vid : String) (now : Int),
        hasVideo l vid = true →
        insertVideo l vid now = .error "UNIQUE constraint failed: videos_posted.id") ∧
    (∀ (l : Ledger) (vid : String) (now : Int) (l2 : Ledger),
        insertVideo l vid now = .ok l2 →
        hasVideo l vid = false ∧
        l2.videosPosted = l.videosPosted ++ [⟨vid, now⟩]) ∧
    (∀ (env : Env) (item : Item) (l : Ledger),
        item.kind = "youtube#video" →
        hasVideo l item.videoId = true →
        processItem env item l = ([.ledgerLookup item.videoId], some l)) ∧
    (∀ (envs : List Env) (l lFin : Ledger),
        NodupVideos l → runCycles envs l = some lFin → NodupVideos lFin) := by
  refine ⟨?_, ?_, ?_, ?_⟩
  · intro l vid now h
    simp [insertVideo, h]
  · intro l vid now l2 h
    obtain ⟨h1, h2, _⟩ := insertVideo_ok h
    exact ⟨h1, h2⟩
  · intro env item l hk hv
    simp [processItem, hk, hv]
  · intro envs
    induction envs with
    | nil =>
      intro l lFin hN h
      simp only [runCycles, Option.some.injEq] at h
      rw [← h]
      exact hN
    | cons env rest ih =>
      intro l lFin hN h
      rcases hc : (runCycle env l).2 with _ | lNext
      · simp [runCycles, hc] at h
      · simp only [runCycles, hc] at h
        exact ih lNext lFin (runCycle_nodup hN hc) h

/-- Witness for C1 at concrete inputs: a duplicate insert for "v1" is
rejected with the constraint error; a fresh insert reports the id as absent
and appends; the pipeline skips the already-posted "v1"; a run of the
scenario cycle keeps the ledger duplicate-free. -/
theorem c1_no_duplicate_announcement_witness :
    insertVideo ⟨[⟨"v1", 0⟩], []⟩ "v1" 5 =
      .error "UNIQUE constraint failed: videos_posted.id" ∧
    (hasVideo emptyLedger "v1" = false ∧
      ({ videosPosted := [⟨"v1", 5⟩], channelCheckTimes := [] } : Ledger).videosPosted =
        emptyLedger.videosPosted ++ [⟨"v1", 5⟩]) ∧
    processItem envDeliverOk itemFooBar ⟨[⟨"v1", 0⟩], []⟩ =
      ([.ledgerLookup "v1"], some ⟨[⟨"v1", 0⟩], []⟩) ∧
    NodupVideos { videosPosted := [⟨"v1", 1000⟩], channelCheckTimes := [⟨"c1", 1000⟩] } := by
  refine ⟨?_, ?_, ?_, ?_⟩
  · exact c1_no_duplicate_announcement.1 ⟨[⟨"v1", 0⟩], []⟩ "v1" 5 (by decide)
  · exact c1_no_duplicate_announcement.2.1 emptyLedger "v1" 5
      { videosPosted := [⟨"v1", 5⟩], channelCheckTimes := [] } rfl
  · exact c1_no_duplicate_announcement.2.2.1 envDeliverOk itemFooBar ⟨[⟨"v1", 0⟩], []⟩
      rfl (by decide)
  · exact c1_no_duplicate_announcement.2.2.2 [envDeliverOk] emptyLedger
      { videosPosted := [⟨"v1", 1000⟩], channelCheckTimes := [⟨"c1", 1000⟩] }
      (by simp [NodupVideos, emptyLedger]) (by decide)

/-- Witness for C2 at a concrete input: the scenario cycle's trace has its
check-mark insert before its search call. -/
theorem c2_mark_before_search_witness :
    checkedBeforeSearch [] (runCycle envDeliverOk emptyLedger).1 = true :=
  c2_mark_before_search envDeliverOk emptyLedger

/-- Witness for C5 (amended) at a concrete input. -/
theorem c5_message_content_witness :
    (∃ pre post : String,
        webhookMessage "X &amp; Y" "v1" = pre ++ htmlUnescape "X &amp; Y" ++ post) ∧
    (∃ pre post : String,
        webhookMessage "X &amp; Y" "v1" = pre ++ ("https://youtu.be/" ++ "v1") ++ post) :=
  c5_message_content "X &amp; Y" "v1"

/-- Witness for C9 at a concrete input: bootstrap from an empty schema. -/
theorem c9_bootstrap_idempotent_witness :
    ∃ s1 : Schema,
      bootstrapSchema ⟨false, false⟩ = .ok s1 ∧ bootstrapSchema s1 = .ok s1 :=
  c9_bootstrap_idempotent ⟨false, false⟩

end Ytbot
